import Mathlib

/-!
Shallow embedding of the resilient command-execution engine of `p4-fusion`
(`src/p4-fusion/p4_api.h`, template method `P4API::RunEx`, plus the
declared client-spec path predicates), together with theorems settling the
frozen claims about it.

The environment (the Helix protocol client and the server) is modelled by
two oracles: `disp i` gives the transport-dropped flag and the error
severity observed after the `i`-th dispatch of the command, and `rein j`
gives the outcome of the `j`-th `Reinitialize()` call.  `RunExM` replays
`RunEx` against these oracles, recording every observable action in an
event trace.  The retry loop can run forever when the budget is negative,
so it takes a fuel argument; `none` means the loop was still running after
`fuel` iterations.
-/

namespace P4Fusion

/-- Error severity of a command result, as exposed by `Error::IsError` /
`Error::IsFatal` on the receiver (`Result::GetError`): no error, a
recoverable (non-fatal) error, or a fatal error. -/
inductive Severity where
  | ok
  | recoverable
  | fatal
deriving DecidableEq

/-- `Error::IsError()`: true for both recoverable and fatal errors. -/
def isError : Severity → Bool
  | Severity.ok => false
  | Severity.recoverable => true
  | Severity.fatal => true

/-- `Error::IsFatal()`: true only for fatal errors. -/
def isFatal : Severity → Bool
  | Severity.fatal => true
  | _ => false

/-- What one dispatch of the command observes: `ClientApi::Dropped()` and
the severity of the receiver's error. -/
structure Outcome where
  dropped : Bool
  sev : Severity
deriving DecidableEq

/-- The retry-loop condition of `RunEx`:
`m_ClientAPI.Dropped() || clientUser->GetError().IsError()`. -/
def signal (o : Outcome) : Bool := o.dropped || isError o.sev

/-- Observable actions of `RunEx`, in program order. -/
inductive Ev where
  /-- `clientUser = std::unique_ptr<T>(new T())`: a fresh receiver. -/
  | freshReceiver
  /-- `SetArgv` + `m_ClientAPI.Run(command, clientUser.get())`, the
  `idx`-th dispatch of this call. -/
  | dispatch (cmd : String) (args : List String) (idx : Nat)
  /-- `std::this_thread::sleep_for(std::chrono::seconds(5))`. -/
  | wait5
  /-- A `Reinitialize()` call and its boolean outcome. -/
  | reinit (ok : Bool)
  /-- `retries--`. -/
  | decRetries
  /-- `m_Usage++`. -/
  | usageIncr
  /-- `Deinitialize()`. -/
  | deinit
  /-- `std::exit(1)`. -/
  | exit1
deriving DecidableEq

/-- How a call to `RunEx` ends: the process exits (recording whether
`Deinitialize()` was called first), or the receiver is returned to the
caller together with the final usage counter and the receiver's final
dropped/severity state. -/
inductive RunOut where
  | exited (deinitCalled : Bool)
  | ret (usage : Int) (dropped : Bool) (sev : Severity)
deriving DecidableEq

/-- The events of one iteration of the retry loop that starts with dispatch
counter `a`: wait 5 seconds, `Reinitialize()` (outcome logged, otherwise
ignored), fresh receiver, redispatch of the same command and arguments,
decrement of the retry budget. -/
def iterSeg (rein : Nat → Bool) (cmd : String) (args : List String) (a : Nat) : List Ev :=
  [Ev.wait5, Ev.reinit (rein a), Ev.freshReceiver, Ev.dispatch cmd args (a + 1), Ev.decRetries]

/-- The retry loop of `RunEx` (`while (m_ClientAPI.Dropped() || ...)`),
entered after the initial dispatch.  `retries` is the remaining budget
(`int retries = commandRetries`), `attempt` the index of the dispatch whose
outcome is currently inspected.  Returns the trace of loop events, the
final value of `retries`, and the index of the last dispatch; `none` if
`fuel` iterations were not enough. -/
def retryLoop (disp : Nat → Outcome) (rein : Nat → Bool) (cmd : String)
    (args : List String) : Nat → Int → Nat → Option (List Ev × Int × Nat)
  | 0, retries, attempt =>
    if signal (disp attempt) = false then some ([], retries, attempt)
    else if retries = 0 then some ([], retries, attempt)
    else none
  | fuel + 1, retries, attempt =>
    if signal (disp attempt) = false then some ([], retries, attempt)
    else if retries = 0 then some ([], retries, attempt)
    else
      match retryLoop disp rein cmd args fuel (retries - 1) (attempt + 1) with
      | none => none
      | some (t, r, a) => some (iterSeg rein cmd args attempt ++ t, r, a)

/-- The connection-refresh loop of `RunEx` (`while (refreshRetries > 0)`):
try `Reinitialize()`, break on success, otherwise wait 5 seconds and
decrement.  `rr` is `refreshRetries`, `base` the index of the next
`Reinitialize` call.  The loop performs at most `rr` iterations, so fuel
`rr.toNat` always suffices; returns the trace, the final `refreshRetries`,
and the next reinit index. -/
def refreshLoop (rein : Nat → Bool) : Nat → Int → Nat → (List Ev × Int × Nat)
  | 0, rr, base => ([], rr, base)
  | fuel + 1, rr, base =>
    if 0 < rr then
      if rein base then ([Ev.reinit true], rr, base + 1)
      else
        let r := refreshLoop rein fuel (rr - 1) (base + 1)
        (Ev.reinit false :: Ev.wait5 :: r.1, r.2.1, r.2.2)
    else ([], rr, base)

/-- `P4API::RunEx<T>(command, stringArguments, commandRetries)`, replayed
against the dispatch oracle `disp` and the reinitialize oracle `rein`.
`globalRetries` is the static `P4API::CommandRetries` (used by the refresh
loop and only there), `threshold` is `P4API::CommandRefreshThreshold`, and
`usage0` the value of `m_Usage` on entry.  Returns the full event trace and
the way the call ended; `none` when the retry loop exceeds `fuel`. -/
def RunExM (disp : Nat → Outcome) (rein : Nat → Bool) (cmd : String)
    (args : List String) (fuel : Nat)
    (commandRetries globalRetries threshold usage0 : Int) :
    Option (List Ev × RunOut) :=
  match retryLoop disp rein cmd args fuel commandRetries 0 with
  | none => none
  | some (t, _, att) =>
    let tr0 := Ev.freshReceiver :: Ev.dispatch cmd args 0 :: t
    let o := disp att
    if o.dropped || isFatal o.sev then
      some (tr0 ++ [Ev.deinit, Ev.exit1], RunOut.exited true)
    else
      let usage1 := usage0 + 1
      if threshold < usage1 then
        let r := refreshLoop (fun i => rein (att + i)) globalRetries.toNat globalRetries 0
        if r.2.1 = 0 then
          some (tr0 ++ [Ev.usageIncr] ++ r.1 ++ [Ev.exit1], RunOut.exited false)
        else
          some (tr0 ++ [Ev.usageIncr] ++ r.1, RunOut.ret usage1 o.dropped o.sev)
      else
        some (tr0 ++ [Ev.usageIncr], RunOut.ret usage1 o.dropped o.sev)

/-- Is this event a `Reinitialize()` call? -/
def isReinitEv : Ev → Bool
  | Ev.reinit _ => true
  | _ => false

/-- Is this event a 5-second wait? -/
def isWaitEv : Ev → Bool
  | Ev.wait5 => true
  | _ => false

/-- Is this event a `m_Usage++`? -/
def isUsageEv : Ev → Bool
  | Ev.usageIncr => true
  | _ => false

/-- Number of `Reinitialize()` calls recorded in a trace. -/
def reinitCount (t : List Ev) : Nat := (t.filter isReinitEv).length

/-- Number of 5-second waits recorded in a trace. -/
def waitCount (t : List Ev) : Nat := (t.filter isWaitEv).length

/-- Number of `m_Usage++` events recorded in a trace. -/
def usageCount (t : List Ev) : Nat := (t.filter isUsageEv).length

/-- The events of `n` consecutive retry-loop iterations starting at
dispatch counter `a`. -/
def iterSegs (rein : Nat → Bool) (cmd : String) (args : List String) :
    Nat → Nat → List Ev
  | 0, _ => []
  | n + 1, a => iterSeg rein cmd args a ++ iterSegs rein cmd args n (a + 1)

/-- The events of a refresh loop all `n` of whose `Reinitialize()` attempts
fail: each failed attempt is followed by a 5-second wait. -/
def failSegs : Nat → List Ev
  | 0 => []
  | n + 1 => Ev.reinit false :: Ev.wait5 :: failSegs n

/-- A dispatch oracle that always reports a clean result. -/
def dispClean : Nat → Outcome := fun _ => ⟨false, Severity.ok⟩

/-- A dispatch oracle that always reports the transport as dropped. -/
def dispDropped : Nat → Outcome := fun _ => ⟨true, Severity.ok⟩

/-- A dispatch oracle whose first dispatch reports the transport dropped
and whose later dispatches are clean. -/
def dispFirstDropped : Nat → Outcome :=
  fun i => if i = 0 then ⟨true, Severity.ok⟩ else ⟨false, Severity.ok⟩

/-- A reinitialize oracle that always fails. -/
def reinFail : Nat → Bool := fun _ => false

/-- A reinitialize oracle that always succeeds. -/
def reinOk : Nat → Bool := fun _ => true

/-! ## Client-spec path matching

The sources at hand declare `P4API::IsDepotPathUnderClientSpec` and the
view container `FileMap m_ClientMapping` (p4_api.h lines 32, 64, 67) but
their bodies live in files that are not part of this snapshot, so the
matcher is modelled from the spec. -/

/-- Modelled from the spec: a client-view mapping rule, an ordered pair of
a depot-path pattern and an inclusion flag (`AddClientSpecView` appends
rules in the order given; the body of the matcher is missing from the
sources, only its declaration is present). -/
structure ViewRule where
  pattern : String
  isInclude : Bool
deriving DecidableEq

/-- Does the character list `p` start with the character list `pat`? -/
def listStarts : List Char → List Char → Bool
  | [], _ => true
  | _ :: _, [] => false
  | c :: cs, d :: ds => c == d && listStarts cs ds

/-- The `...` wildcard that ends a covering view pattern. -/
def wildcard : List Char := ['.', '.', '.']

/-- Modelled from the spec: a depot path matches a view-rule pattern when
the pattern ends in the `...` wildcard and the pattern minus the wildcard
is a leading part of the path, or the pattern has no wildcard and equals
the path exactly. -/
def ruleMatches (pat path : String) : Bool :=
  if listStarts wildcard pat.data.reverse then
    listStarts (pat.data.take (pat.data.length - 3)) path.data
  else pat.data == path.data

/-- Modelled from the spec: the last rule of the ordered view list that
matches the path, if any (later rules take precedence). -/
def lastMatching (path : String) : List ViewRule → Option ViewRule
  | [] => none
  | r :: rest =>
    match lastMatching path rest with
    | some r' => some r'
    | none => if ruleMatches r.pattern path then some r else none

/-- Modelled from the spec: `P4API::IsDepotPathUnderClientSpec` — a depot
path is under the client spec when the last view rule matching it (the
rule that wins under the last-match-wins policy) is an include rule. -/
def IsDepotPathUnderClientSpec (rules : List ViewRule) (path : String) : Bool :=
  match lastMatching path rules with
  | some r => r.isInclude
  | none => false

/-- The rule list of testable property P6: include `//depot/main/...`,
then exclude `//depot/main/secret/...`. -/
def p6Rules : List ViewRule :=
  [⟨"//depot/main/...", true⟩, ⟨"//depot/main/secret/...", false⟩]

/-! ## Helper lemmas about the loops -/

theorem usageCount_append (s t : List Ev) :
    usageCount (s ++ t) = usageCount s + usageCount t := by
  simp [usageCount, List.filter_append]

theorem reinitCount_append (s t : List Ev) :
    reinitCount (s ++ t) = reinitCount s + reinitCount t := by
  simp [reinitCount, List.filter_append]

theorem waitCount_append (s t : List Ev) :
    waitCount (s ++ t) = waitCount s + waitCount t := by
  simp [waitCount, List.filter_append]

theorem usageCount_cons (e : Ev) (t : List Ev) :
    usageCount (e :: t) = (if isUsageEv e then 1 else 0) + usageCount t := by
  simp only [usageCount, List.filter_cons]
  split
  · simp
    omega
  · simp

/-- When the dropped-or-error signal is clear, the retry loop exits at once
with no events, whatever the fuel. -/
theorem retryLoop_noSignal (disp : Nat → Outcome) (rein : Nat → Bool)
    (cmd : String) (args : List String) (fuel : Nat) (r : Int) (a : Nat)
    (hs : signal (disp a) = false) :
    retryLoop disp rein cmd args fuel r a = some ([], r, a) := by
  cases fuel <;> simp [retryLoop, hs]

/-- When the signal is set but the budget is exhausted (`retries == 0`),
the retry loop breaks out at once with no events. -/
theorem retryLoop_break (disp : Nat → Outcome) (rein : Nat → Bool)
    (cmd : String) (args : List String) (fuel : Nat) (a : Nat) :
    retryLoop disp rein cmd args fuel 0 a = some ([], 0, a) := by
  cases fuel <;> simp [retryLoop]

/-- The retry loop only consults the reinitialize oracle at indices at or
after its starting dispatch counter. -/
theorem retryLoop_congr (disp : Nat → Outcome) (rein1 rein2 : Nat → Bool)
    (cmd : String) (args : List String) :
    ∀ (fuel : Nat) (r : Int) (a : Nat), (∀ i, a ≤ i → rein1 i = rein2 i) →
      retryLoop disp rein1 cmd args fuel r a = retryLoop disp rein2 cmd args fuel r a := by
  intro fuel
  induction fuel with
  | zero => intro r a _; simp [retryLoop]
  | succ fuel ih =>
    intro r a h
    simp only [retryLoop]
    rw [ih (r - 1) (a + 1) (fun i hi => h i (by omega))]
    simp only [iterSeg, h a (by omega)]

/-- If every dispatch reports the transport dropped, the retry loop with a
nonnegative budget `n` performs exactly `n` full iterations and then exits
with the budget at zero. -/
theorem retryLoop_allDropped (disp : Nat → Outcome) (rein : Nat → Bool)
    (cmd : String) (args : List String) (hd : ∀ i, (disp i).dropped = true) :
    ∀ (n a fuel : Nat), n ≤ fuel →
      retryLoop disp rein cmd args fuel ((n : Nat) : Int) a
        = some (iterSegs rein cmd args n a, 0, a + n) := by
  intro n
  induction n with
  | zero =>
    intro a fuel _
    cases fuel <;> simp [retryLoop, signal, hd a, iterSegs]
  | succ n ih =>
    intro a fuel hf
    match fuel, hf with
    | fuel + 1, hf =>
      have hsig : signal (disp a) = true := by simp [signal, hd a]
      have hcast : ((n + 1 : Nat) : Int) - 1 = ((n : Nat) : Int) := by push_cast; ring
      have hne : ¬(((n + 1 : Nat) : Int) = 0) := by omega
      simp only [retryLoop]
      rw [if_neg (by rw [hsig]; simp), if_neg hne, hcast, ih (a + 1) fuel (by omega)]
      simp only [iterSegs, Option.some.injEq, Prod.mk.injEq]
      refine ⟨trivial, trivial, by omega⟩

/-- With a negative budget the `retries == 0` exit is never reached: as
long as every dispatch keeps the signal set, the loop is still running
after any number of iterations. -/
theorem retryLoop_neg (disp : Nat → Outcome) (rein : Nat → Bool)
    (cmd : String) (args : List String) (hs : ∀ i, signal (disp i) = true) :
    ∀ (fuel : Nat) (r : Int) (a : Nat), r < 0 →
      retryLoop disp rein cmd args fuel r a = none := by
  intro fuel
  induction fuel with
  | zero =>
    intro r a hr
    simp [retryLoop, hs a]
    omega
  | succ fuel ih =>
    intro r a hr
    simp only [retryLoop, hs a]
    rw [ih (r - 1) (a + 1) (by omega)]
    simp
    omega

/-- Retry-loop traces contain no usage increment and no `Deinitialize`
event: those belong to the phases after the loop. -/
theorem retryLoop_pure (disp : Nat → Outcome) (rein : Nat → Bool)
    (cmd : String) (args : List String) :
    ∀ (fuel : Nat) (r : Int) (a : Nat) (t : List Ev) (rf : Int) (att : Nat),
      retryLoop disp rein cmd args fuel r a = some (t, rf, att) →
      usageCount t = 0 ∧ Ev.deinit ∉ t := by
  intro fuel
  induction fuel with
  | zero =>
    intro r a t rf att h
    simp only [retryLoop] at h
    split at h
    · simp at h; simp [h.1, usageCount]
    · split at h
      · simp at h; simp [h.1, usageCount]
      · exact absurd h (by simp)
  | succ fuel ih =>
    intro r a t rf att h
    simp only [retryLoop] at h
    split at h
    · simp at h; simp [h.1, usageCount]
    · split at h
      · simp at h; simp [h.1, usageCount]
      · match hrec : retryLoop disp rein cmd args fuel (r - 1) (a + 1) with
        | none => rw [hrec] at h; simp at h
        | some (t', r', a') =>
          rw [hrec] at h
          simp at h
          obtain ⟨ht, _, _⟩ := h
          obtain ⟨h1, h2⟩ := ih (r - 1) (a + 1) t' r' a' hrec
          subst ht
          constructor
          · rw [usageCount_append, h1, iterSeg]
            simp [usageCount, isUsageEv]
          · simp [iterSeg, h2]

/-- A nonpositive `refreshRetries` skips the refresh loop entirely. -/
theorem refreshLoop_skip (rein : Nat → Bool) (fuel : Nat) (rr : Int)
    (base : Nat) (h : rr ≤ 0) :
    refreshLoop rein fuel rr base = ([], rr, base) := by
  cases fuel <;> simp [refreshLoop]
  omega

/-- If every `Reinitialize()` fails, a refresh loop with budget `n` makes
exactly `n` attempts, each followed by a 5-second wait, and ends with
`refreshRetries = 0`. -/
theorem refreshLoop_allFail (rein : Nat → Bool) (hr : ∀ i, rein i = false) :
    ∀ (n base : Nat),
      refreshLoop rein n ((n : Nat) : Int) base = (failSegs n, 0, base + n) := by
  intro n
  induction n with
  | zero => intro base; simp [refreshLoop, failSegs]
  | succ n ih =>
    intro base
    have hcast : ((n + 1 : Nat) : Int) - 1 = ((n : Nat) : Int) := by push_cast; ring
    simp only [refreshLoop, hr base, if_pos (by omega : (0 : Int) < ((n + 1 : Nat) : Int))]
    rw [hcast, ih (base + 1)]
    simp [failSegs]
    omega

/-- Refresh-loop traces consist of `Reinitialize` calls and waits only;
in particular they contain no usage increment and no `Deinitialize`. -/
theorem refreshLoop_pure (rein : Nat → Bool) :
    ∀ (fuel : Nat) (rr : Int) (base : Nat),
      usageCount (refreshLoop rein fuel rr base).1 = 0
        ∧ Ev.deinit ∉ (refreshLoop rein fuel rr base).1 := by
  intro fuel
  induction fuel with
  | zero => intro rr base; simp [refreshLoop, usageCount]
  | succ fuel ih =>
    intro rr base
    simp only [refreshLoop]
    split
    · split
      · simp [usageCount, isUsageEv]
      · obtain ⟨h1, h2⟩ := ih (rr - 1) (base + 1)
        constructor
        · simp [usageCount, isUsageEv] at h1 ⊢
          exact h1
        · simp [h2]
    · simp [usageCount]

/-- `n` retry-loop iterations record exactly `n` `Reinitialize` calls and
`n` waits. -/
theorem iterSegs_counts (rein : Nat → Bool) (cmd : String) (args : List String) :
    ∀ (n a : Nat), reinitCount (iterSegs rein cmd args n a) = n
      ∧ waitCount (iterSegs rein cmd args n a) = n := by
  intro n
  induction n with
  | zero => intro a; simp [iterSegs, reinitCount, waitCount]
  | succ n ih =>
    intro a
    obtain ⟨h1, h2⟩ := ih (a + 1)
    constructor
    · rw [iterSegs, reinitCount_append, h1]
      simp [iterSeg, reinitCount, isReinitEv]
      omega
    · rw [iterSegs, waitCount_append, h2]
      simp [iterSeg, waitCount, isWaitEv]
      omega

/-- An all-failed refresh loop never performs a `Deinitialize`. -/
theorem failSegs_no_deinit : ∀ n, Ev.deinit ∉ failSegs n := by
  intro n
  induction n with
  | zero => simp [failSegs]
  | succ n ih => simp [failSegs, ih]

/-- An all-failed refresh loop with budget `n` records exactly `n`
`Reinitialize` attempts. -/
theorem reinitCount_failSegs : ∀ n, reinitCount (failSegs n) = n := by
  intro n
  induction n with
  | zero => simp [failSegs, reinitCount]
  | succ n ih =>
    simp [failSegs, reinitCount, isReinitEv, List.filter_cons] at ih ⊢
    omega

/-- The winning rule under last-match-wins, when it exists, belongs to the
list and matches the path. -/
theorem lastMatching_some_mem (path : String) :
    ∀ (rules : List ViewRule) (r : ViewRule), lastMatching path rules = some r →
      r ∈ rules ∧ ruleMatches r.pattern path = true := by
  intro rules
  induction rules with
  | nil => intro r h; simp [lastMatching] at h
  | cons q rest ih =>
    intro r h
    simp only [lastMatching] at h
    cases hrest : lastMatching path rest with
    | some r' =>
      rw [hrest] at h
      simp only [Option.some.injEq] at h
      obtain ⟨h1, h2⟩ := ih r' hrest
      subst h
      exact ⟨by simp [h1], h2⟩
    | none =>
      rw [hrest] at h
      by_cases hm : ruleMatches q.pattern path
      · rw [if_pos hm] at h
        simp only [Option.some.injEq] at h
        subst h
        exact ⟨by simp, hm⟩
      · rw [if_neg hm] at h
        simp at h

/-- No rule wins under last-match-wins exactly when no rule matches. -/
theorem lastMatching_none_iff (path : String) :
    ∀ rules : List ViewRule, lastMatching path rules = none ↔
      ∀ r ∈ rules, ruleMatches r.pattern path = false := by
  intro rules
  induction rules with
  | nil => simp [lastMatching]
  | cons q rest ih =>
    cases hrest : lastMatching path rest with
    | some r' =>
      obtain ⟨hmem, hmatch⟩ := lastMatching_some_mem path rest r' hrest
      simp only [lastMatching, hrest]
      constructor
      · intro h; exact absurd h (by simp)
      · intro h
        exact absurd (h r' (by simp [hmem])) (by simp [hmatch])
    | none =>
      simp only [lastMatching, hrest]
      by_cases hm : ruleMatches q.pattern path
      · rw [if_pos hm]
        constructor
        · intro h; exact absurd h (by simp)
        · intro h; exact absurd (h q (by simp)) (by simp [hm])
      · rw [if_neg hm]
        constructor
        · intro _ r hr
          rcases List.mem_cons.mp hr with h1 | h2
          · subst h1
            simp at hm
            exact hm
          · exact (ih.mp hrest) r h2
        · intro _; rfl

/-! ## Claims -/

/-- C2: for every call to `RunEx` with retry budget `N ≥ 0` in which every
dispatch reports the transport as dropped, the engine performs exactly `N`
`Reinitialize` attempts — the trace consists of `N` retry iterations
(`iterSegs`, whose definition places `wait5` immediately before each
`reinit`) — and then terminates the process (after a `Deinitialize`, since
the transport is still dropped). -/
theorem c2_always_dropped_n_reinits_then_exit (disp : Nat → Outcome)
    (rein : Nat → Bool) (cmd : String) (args : List String) (n fuel : Nat)
    (gr th u0 : Int) (hf : n ≤ fuel) (hd : ∀ i, (disp i).dropped = true) :
    RunExM disp rein cmd args fuel ((n : Nat) : Int) gr th u0
      = some (Ev.freshReceiver :: Ev.dispatch cmd args 0 ::
          (iterSegs rein cmd args n 0 ++ [Ev.deinit, Ev.exit1]), RunOut.exited true)
    ∧ reinitCount (Ev.freshReceiver :: Ev.dispatch cmd args 0 ::
          (iterSegs rein cmd args n 0 ++ [Ev.deinit, Ev.exit1])) = n
    ∧ waitCount (Ev.freshReceiver :: Ev.dispatch cmd args 0 ::
          (iterSegs rein cmd args n 0 ++ [Ev.deinit, Ev.exit1])) = n := by
  have hret := retryLoop_allDropped disp rein cmd args hd n 0 fuel hf
  obtain ⟨hc1, hc2⟩ := iterSegs_counts rein cmd args n 0
  have hsplit : Ev.freshReceiver :: Ev.dispatch cmd args 0 ::
      (iterSegs rein cmd args n 0 ++ [Ev.deinit, Ev.exit1])
      = [Ev.freshReceiver, Ev.dispatch cmd args 0] ++ iterSegs rein cmd args n 0
          ++ [Ev.deinit, Ev.exit1] := by simp
  refine ⟨?_, ?_, ?_⟩
  · unfold RunExM
    rw [hret]
    simp [hd n]
  · rw [hsplit, reinitCount_append, reinitCount_append, hc1]
    simp [reinitCount, isReinitEv]
  · rw [hsplit, waitCount_append, waitCount_append, hc2]
    simp [waitCount, isWaitEv]

/-- Witness for C2 at `N = 2`. -/
theorem c2_witness :
    (2 : Nat) ≤ 2
    ∧ (RunExM dispDropped reinFail "w2" [] 2 ((2 : Nat) : Int) 0 0 0
        = some (Ev.freshReceiver :: Ev.dispatch "w2" [] 0 ::
            (iterSegs reinFail "w2" [] 2 0 ++ [Ev.deinit, Ev.exit1]), RunOut.exited true)
      ∧ reinitCount (Ev.freshReceiver :: Ev.dispatch "w2" [] 0 ::
            (iterSegs reinFail "w2" [] 2 0 ++ [Ev.deinit, Ev.exit1])) = 2
      ∧ waitCount (Ev.freshReceiver :: Ev.dispatch "w2" [] 0 ::
            (iterSegs reinFail "w2" [] 2 0 ++ [Ev.deinit, Ev.exit1])) = 2) :=
  ⟨by decide,
    c2_always_dropped_n_reinits_then_exit dispDropped reinFail "w2" [] 2 2 0 0 0
      (by decide) (fun _ => rfl)⟩

/-- C9: if the post-loop fatal check passes, the global budget
`CommandRetries` is `0`, and the incremented usage counter exceeds the
refresh threshold, then the refresh-loop body never runs
(`refreshRetries > 0` fails at once) and the `refreshRetries == 0` check
makes the process exit immediately, without a single `Reinitialize`
attempt: the trace ends in `usageIncr` directly followed by `exit1`, and
its `Reinitialize` count is exactly that of the retry loop. -/
theorem c9_zero_global_budget_refresh_exits_immediately (disp : Nat → Outcome)
    (rein : Nat → Bool) (cmd : String) (args : List String) (fuel : Nat)
    (cr th u0 : Int) (t : List Ev) (rf : Int) (att : Nat)
    (h : retryLoop disp rein cmd args fuel cr 0 = some (t, rf, att))
    (hdp : (disp att).dropped = false) (hft : isFatal (disp att).sev = false)
    (hth : th < u0 + 1) :
    RunExM disp rein cmd args fuel cr 0 th u0
      = some (Ev.freshReceiver :: Ev.dispatch cmd args 0 ::
          (t ++ [Ev.usageIncr, Ev.exit1]), RunOut.exited false)
    ∧ reinitCount (Ev.freshReceiver :: Ev.dispatch cmd args 0 ::
          (t ++ [Ev.usageIncr, Ev.exit1])) = reinitCount t := by
  constructor
  · unfold RunExM
    rw [h]
    simp [hdp, hft, hth, refreshLoop]
  · have hsplit : Ev.freshReceiver :: Ev.dispatch cmd args 0 ::
        (t ++ [Ev.usageIncr, Ev.exit1])
        = [Ev.freshReceiver, Ev.dispatch cmd args 0] ++ t ++ [Ev.usageIncr, Ev.exit1] := by
      simp
    rw [hsplit, reinitCount_append, reinitCount_append]
    simp [reinitCount, isReinitEv]

/-- Witness for C9: a clean command at usage `0` with threshold `0` and
`CommandRetries = 0`. -/
theorem c9_witness :
    retryLoop dispClean reinFail "w9" [] 1 1 0 = some ([], 1, 0)
    ∧ (dispClean 0).dropped = false
    ∧ isFatal (dispClean 0).sev = false
    ∧ (0 : Int) < 0 + 1
    ∧ (RunExM dispClean reinFail "w9" [] 1 1 0 0 0
        = some (Ev.freshReceiver :: Ev.dispatch "w9" [] 0 ::
            (([] : List Ev) ++ [Ev.usageIncr, Ev.exit1]), RunOut.exited false)
      ∧ reinitCount (Ev.freshReceiver :: Ev.dispatch "w9" [] 0 ::
            (([] : List Ev) ++ [Ev.usageIncr, Ev.exit1])) = reinitCount []) :=
  ⟨by decide, by decide, by decide, by decide,
    c9_zero_global_budget_refresh_exits_immediately dispClean reinFail "w9" [] 1 1 0 0
      [] 1 0 (by decide) (by decide) (by decide) (by decide)⟩

/-- C10: with a negative retry budget the `retries == 0` exit condition is
never reached (the budget is not clamped to zero): as long as every
redispatch leaves the dropped-or-error signal set, the retry loop — and
with it `RunEx` — is still running after any number of iterations. -/
theorem c10_negative_budget_loops_forever (disp : Nat → Outcome)
    (rein : Nat → Bool) (cmd : String) (args : List String)
    (cr gr th u0 : Int) (hcr : cr < 0) (hs : ∀ i, signal (disp i) = true) :
    ∀ fuel : Nat, retryLoop disp rein cmd args fuel cr 0 = none
      ∧ RunExM disp rein cmd args fuel cr gr th u0 = none := by
  intro fuel
  have h := retryLoop_neg disp rein cmd args hs fuel cr 0 hcr
  exact ⟨h, by unfold RunExM; rw [h]⟩

/-- Counterexample for C1: a run whose post-loop outcome is neither
dropped nor fatal (so, per the claim, the receiver should be returned to
the caller) nevertheless terminates the process — the usage-refresh phase
exhausts its budget — and does so without a `Deinitialize` (the result is
`RunOut.exited false` and the trace ends in `exit1` with no `deinit`). -/
theorem c1_counterexample :
    RunExM dispClean reinFail "changes" [] 1 1 1 0 0
      = some ([Ev.freshReceiver, Ev.dispatch "changes" [] 0, Ev.usageIncr,
          Ev.reinit false, Ev.wait5, Ev.exit1], RunOut.exited false)
    ∧ (dispClean 0).dropped = false
    ∧ isFatal (dispClean 0).sev = false := by decide

/-- C1 (amended): after the retry loop exits, the engine deinitializes and
terminates iff the transport is still dropped or the receiver's error is
fatal; otherwise it returns the receiver to the caller — its error state
possibly still set (the returned severity is the final dispatch's) —
unless the usage-refresh phase exhausts its budget, in which case the
process terminates without a `Deinitialize`. -/
theorem c1_post_loop_terminates_iff_dropped_or_fatal (disp : Nat → Outcome)
    (rein : Nat → Bool) (cmd : String) (args : List String) (fuel : Nat)
    (cr gr th u0 : Int) (t : List Ev) (rf : Int) (att : Nat)
    (h : retryLoop disp rein cmd args fuel cr 0 = some (t, rf, att)) :
    ((RunExM disp rein cmd args fuel cr gr th u0).map Prod.snd
        = some (RunOut.exited true)
      ↔ ((disp att).dropped || isFatal (disp att).sev) = true)
    ∧ (((disp att).dropped || isFatal (disp att).sev) = false →
        (RunExM disp rein cmd args fuel cr gr th u0).map Prod.snd
          = some (RunOut.ret (u0 + 1) (disp att).dropped (disp att).sev)
        ∨ ((RunExM disp rein cmd args fuel cr gr th u0).map Prod.snd
              = some (RunOut.exited false)
            ∧ th < u0 + 1
            ∧ (refreshLoop (fun i => rein (att + i)) gr.toNat gr 0).2.1 = 0)) := by
  by_cases hcond : ((disp att).dropped || isFatal (disp att).sev) = true
  · constructor
    · unfold RunExM
      rw [h]
      simp [hcond]
    · intro hfalse
      rw [hcond] at hfalse
      exact absurd hfalse (by simp)
  · have hcond' : ((disp att).dropped || isFatal (disp att).sev) = false := by
      simpa using hcond
    constructor
    · unfold RunExM
      rw [h]
      by_cases hth : th < u0 + 1
      · by_cases hz : (refreshLoop (fun i => rein (att + i)) gr.toNat gr 0).2.1 = 0
        · simp [hcond', hth, hz]
        · simp [hcond', hth, hz]
      · simp [hcond', hth]
    · intro _
      unfold RunExM
      rw [h]
      by_cases hth : th < u0 + 1
      · by_cases hz : (refreshLoop (fun i => rein (att + i)) gr.toNat gr 0).2.1 = 0
        · right
          simp [hcond', hth, hz]
        · left
          simp [hcond', hth, hz]
      · left
        simp [hcond', hth]

/-- Witness for C1 (amended) on an always-dropped run with budget `0`. -/
theorem c1_witness :
    retryLoop dispDropped reinFail "w1" [] 1 0 0 = some ([], 0, 0)
    ∧ (((RunExM dispDropped reinFail "w1" [] 1 0 0 0 0).map Prod.snd
          = some (RunOut.exited true)
        ↔ ((dispDropped 0).dropped || isFatal (dispDropped 0).sev) = true)
      ∧ (((dispDropped 0).dropped || isFatal (dispDropped 0).sev) = false →
          (RunExM dispDropped reinFail "w1" [] 1 0 0 0 0).map Prod.snd
            = some (RunOut.ret (0 + 1) (dispDropped 0).dropped (dispDropped 0).sev)
          ∨ ((RunExM dispDropped reinFail "w1" [] 1 0 0 0 0).map Prod.snd
                = some (RunOut.exited false)
              ∧ (0 : Int) < 0 + 1
              ∧ (refreshLoop (fun i => reinFail (0 + i)) (0 : Int).toNat 0 0).2.1 = 0))) :=
  ⟨by decide,
    c1_post_loop_terminates_iff_dropped_or_fatal dispDropped reinFail "w1" [] 1 0 0 0 0
      [] 0 0 (by decide)⟩

/-- Counterexample for C3: when the usage counter has crossed the
threshold and every refresh `Reinitialize` attempt fails across the whole
budget, the process terminates (`exit1`) but — contrary to the claim — no
`Deinitialize` happens: `Ev.deinit` is absent from the trace. -/
theorem c3_counterexample :
    RunExM dispClean reinFail "sync" [] 1 1 2 0 5
      = some ([Ev.freshReceiver, Ev.dispatch "sync" [] 0, Ev.usageIncr,
          Ev.reinit false, Ev.wait5, Ev.reinit false, Ev.wait5, Ev.exit1],
          RunOut.exited false)
    ∧ Ev.deinit ∉ [Ev.freshReceiver, Ev.dispatch "sync" [] 0, Ev.usageIncr,
          Ev.reinit false, Ev.wait5, Ev.reinit false, Ev.wait5, Ev.exit1] := by decide

/-- C3 (amended): when the usage counter exceeds the refresh threshold
after a completed command and every `Reinitialize` attempt of the refresh
loop fails across the full retry budget, the engine terminates the process
*without* calling `Deinitialize`: the run ends in `exit1`, the result is
`RunOut.exited false`, and `Ev.deinit` never occurs in the trace. -/
theorem c3_refresh_exhausted_exits_without_deinit (disp : Nat → Outcome)
    (rein : Nat → Bool) (cmd : String) (args : List String) (fuel : Nat)
    (cr th u0 : Int) (m : Nat) (t : List Ev) (rf : Int) (att : Nat)
    (h : retryLoop disp rein cmd args fuel cr 0 = some (t, rf, att))
    (hdp : (disp att).dropped = false) (hft : isFatal (disp att).sev = false)
    (hth : th < u0 + 1) (hr : ∀ i, rein i = false) :
    RunExM disp rein cmd args fuel cr ((m : Nat) : Int) th u0
      = some (Ev.freshReceiver :: Ev.dispatch cmd args 0 ::
          (t ++ Ev.usageIncr :: (failSegs m ++ [Ev.exit1])), RunOut.exited false)
    ∧ Ev.deinit ∉ (Ev.freshReceiver :: Ev.dispatch cmd args 0 ::
          (t ++ Ev.usageIncr :: (failSegs m ++ [Ev.exit1]))) := by
  have hrl := refreshLoop_allFail (fun i => rein (att + i)) (fun i => hr (att + i)) m 0
  constructor
  · unfold RunExM
    rw [h]
    have htn : ((m : Nat) : Int).toNat = m := by simp
    simp [hdp, hft, hth, htn, hrl]
  · have hpt := (retryLoop_pure disp rein cmd args fuel cr 0 t rf att h).2
    have hpf := failSegs_no_deinit m
    simp [hpt, hpf]

/-- Witness for C3 (amended) with refresh budget `1`. -/
theorem c3_witness :
    retryLoop dispClean reinFail "w3" [] 1 1 0 = some ([], 1, 0)
    ∧ (dispClean 0).dropped = false
    ∧ isFatal (dispClean 0).sev = false
    ∧ (0 : Int) < 0 + 1
    ∧ (RunExM dispClean reinFail "w3" [] 1 1 ((1 : Nat) : Int) 0 0
        = some (Ev.freshReceiver :: Ev.dispatch "w3" [] 0 ::
            (([] : List Ev) ++ Ev.usageIncr :: (failSegs 1 ++ [Ev.exit1])),
            RunOut.exited false)
      ∧ Ev.deinit ∉ (Ev.freshReceiver :: Ev.dispatch "w3" [] 0 ::
            (([] : List Ev) ++ Ev.usageIncr :: (failSegs 1 ++ [Ev.exit1])))) :=
  ⟨by decide, by decide, by decide, by decide,
    c3_refresh_exhausted_exits_without_deinit dispClean reinFail "w3" [] 1 1 0 0 1
      [] 1 0 (by decide) (by decide) (by decide) (by decide) (fun _ => rfl)⟩

/-- Counterexample for C4: with refresh threshold `1` and the usage
counter never reset, two consecutive completed commands (usage 1 → 2, then
2 → 3) each run the refresh loop — both traces contain a refresh-phase
`reinit` after `usageIncr` — although only the first completion took the
counter past the threshold. -/
theorem c4_counterexample :
    RunExM dispClean reinOk "fstat" [] 1 1 1 1 1
      = some ([Ev.freshReceiver, Ev.dispatch "fstat" [] 0, Ev.usageIncr,
          Ev.reinit true], RunOut.ret 2 false Severity.ok)
    ∧ RunExM dispClean reinOk "fstat" [] 1 1 1 1 2
      = some ([Ev.freshReceiver, Ev.dispatch "fstat" [] 0, Ev.usageIncr,
          Ev.reinit true], RunOut.ret 3 false Severity.ok) := by decide

/-- C4 (amended): the refresh cycle runs after *every* completed command
whose incremented usage counter exceeds the threshold (the counter is
never reset, so once past the threshold every completion triggers a
cycle, not only the first crossing); during any such cycle, if
`Reinitialize` fails across the full retry budget (final
`refreshRetries = 0`) the process terminates. -/
theorem c4_refresh_every_completion_past_threshold (disp : Nat → Outcome)
    (rein : Nat → Bool) (cmd : String) (args : List String) (fuel : Nat)
    (cr gr th u0 : Int) (t : List Ev) (rf : Int) (att : Nat)
    (h : retryLoop disp rein cmd args fuel cr 0 = some (t, rf, att))
    (hdp : (disp att).dropped = false) (hft : isFatal (disp att).sev = false) :
    (¬ th < u0 + 1 →
      RunExM disp rein cmd args fuel cr gr th u0
        = some (Ev.freshReceiver :: Ev.dispatch cmd args 0 :: (t ++ [Ev.usageIncr]),
            RunOut.ret (u0 + 1) (disp att).dropped (disp att).sev))
    ∧ (th < u0 + 1 →
        ¬ (refreshLoop (fun i => rein (att + i)) gr.toNat gr 0).2.1 = 0 →
      RunExM disp rein cmd args fuel cr gr th u0
        = some (Ev.freshReceiver :: Ev.dispatch cmd args 0 ::
            (t ++ Ev.usageIncr :: (refreshLoop (fun i => rein (att + i)) gr.toNat gr 0).1),
            RunOut.ret (u0 + 1) (disp att).dropped (disp att).sev))
    ∧ (th < u0 + 1 →
        (refreshLoop (fun i => rein (att + i)) gr.toNat gr 0).2.1 = 0 →
      RunExM disp rein cmd args fuel cr gr th u0
        = some (Ev.freshReceiver :: Ev.dispatch cmd args 0 ::
            (t ++ Ev.usageIncr ::
              ((refreshLoop (fun i => rein (att + i)) gr.toNat gr 0).1 ++ [Ev.exit1])),
            RunOut.exited false)) := by
  refine ⟨?_, ?_, ?_⟩
  · intro hth
    unfold RunExM
    rw [h]
    simp [hdp, hft, hth]
  · intro hth hz
    unfold RunExM
    rw [h]
    simp [hdp, hft, hth, hz]
  · intro hth hz
    unfold RunExM
    rw [h]
    simp [hdp, hft, hth, hz]

/-- Witness for C4 (amended): a clean command at usage `1`, threshold `1`,
refresh budget `1`, successful refresh. -/
theorem c4_witness :
    retryLoop dispClean reinOk "w4" [] 1 1 0 = some ([], 1, 0)
    ∧ (dispClean 0).dropped = false
    ∧ isFatal (dispClean 0).sev = false
    ∧ ((¬ (1 : Int) < 1 + 1 →
        RunExM dispClean reinOk "w4" [] 1 1 1 1 1
          = some (Ev.freshReceiver :: Ev.dispatch "w4" [] 0 ::
              (([] : List Ev) ++ [Ev.usageIncr]),
              RunOut.ret (1 + 1) (dispClean 0).dropped (dispClean 0).sev))
      ∧ ((1 : Int) < 1 + 1 →
          ¬ (refreshLoop (fun i => reinOk (0 + i)) (1 : Int).toNat 1 0).2.1 = 0 →
        RunExM dispClean reinOk "w4" [] 1 1 1 1 1
          = some (Ev.freshReceiver :: Ev.dispatch "w4" [] 0 ::
              (([] : List Ev) ++ Ev.usageIncr ::
                (refreshLoop (fun i => reinOk (0 + i)) (1 : Int).toNat 1 0).1),
              RunOut.ret (1 + 1) (dispClean 0).dropped (dispClean 0).sev))
      ∧ ((1 : Int) < 1 + 1 →
          (refreshLoop (fun i => reinOk (0 + i)) (1 : Int).toNat 1 0).2.1 = 0 →
        RunExM dispClean reinOk "w4" [] 1 1 1 1 1
          = some (Ev.freshReceiver :: Ev.dispatch "w4" [] 0 ::
              (([] : List Ev) ++ Ev.usageIncr ::
                ((refreshLoop (fun i => reinOk (0 + i)) (1 : Int).toNat 1 0).1 ++ [Ev.exit1])),
              RunOut.exited false))) :=
  ⟨by decide, by decide, by decide,
    c4_refresh_every_completion_past_threshold dispClean reinOk "w4" [] 1 1 1 1 1
      [] 1 0 (by decide) (by decide) (by decide)⟩

/-- C6: while the signal is set and the remaining budget is nonzero, one
retry iteration performs, in this order: a 5-second wait, a `Reinitialize`
whose outcome `b` does not change any subsequent step (the continuation is
the same whatever `b` is), discarding of the stale receiver and
construction of a fresh one, redispatch of the same command with the same
arguments, decrement of the budget, and re-inspection of the signals (the
continuation is the loop itself at the next dispatch); when the remaining
budget is zero the loop exits without retrying. -/
theorem c6_retry_iteration_order (disp : Nat → Outcome) (rein : Nat → Bool)
    (cmd : String) (args : List String) (fuel : Nat) (retries : Int)
    (attempt : Nat) (b : Bool) (hs : signal (disp attempt) = true)
    (hr : ¬ retries = 0) :
    retryLoop disp (Function.update rein attempt b) cmd args (fuel + 1) retries attempt
      = Option.map (fun x => (Ev.wait5 :: Ev.reinit b :: Ev.freshReceiver ::
            Ev.dispatch cmd args (attempt + 1) :: Ev.decRetries :: x.1, x.2))
          (retryLoop disp rein cmd args fuel (retries - 1) (attempt + 1))
    ∧ retryLoop disp rein cmd args fuel 0 attempt = some ([], 0, attempt) := by
  refine ⟨?_, retryLoop_break disp rein cmd args fuel attempt⟩
  have hcg := retryLoop_congr disp (Function.update rein attempt b) rein cmd args fuel
    (retries - 1) (attempt + 1)
    (fun i hi => Function.update_noteq (by omega) b rein)
  simp only [retryLoop]
  rw [if_neg (by rw [hs]; simp), if_neg hr, hcg]
  cases hrec : retryLoop disp rein cmd args fuel (retries - 1) (attempt + 1) with
  | none => simp
  | some x =>
    obtain ⟨t', r', a'⟩ := x
    simp [iterSeg, Function.update_same]

/-- Witness for C6 at budget `2`, dispatch counter `0`, reinit outcome
`true`. -/
theorem c6_witness :
    signal (dispDropped 0) = true
    ∧ ¬ (2 : Int) = 0
    ∧ (retryLoop dispDropped (Function.update reinFail 0 true) "w6" [] 2 2 0
        = Option.map (fun x => (Ev.wait5 :: Ev.reinit true :: Ev.freshReceiver ::
              Ev.dispatch "w6" [] 1 :: Ev.decRetries :: x.1, x.2))
            (retryLoop dispDropped reinFail "w6" [] 1 ((2 : Int) - 1) 1)
      ∧ retryLoop dispDropped reinFail "w6" [] 1 0 0 = some ([], 0, 0)) :=
  ⟨by decide, by decide,
    c6_retry_iteration_order dispDropped reinFail "w6" [] 1 2 0 true
      (by decide) (by decide)⟩

/-- Counterexample for C7: the first dispatch sets the signal, the
redispatch after the first retry clears both signals (final result is
successful with a clean error state), yet the call performs *two*
`Reinitialize` calls, not one: the completion crosses the usage threshold
and the refresh cycle reinitializes again. -/
theorem c7_counterexample :
    RunExM dispFirstDropped reinOk "describe" [] 3 3 3 1 1
      = some ([Ev.freshReceiver, Ev.dispatch "describe" [] 0, Ev.wait5,
          Ev.reinit true, Ev.freshReceiver, Ev.dispatch "describe" [] 1,
          Ev.decRetries, Ev.usageIncr, Ev.reinit true],
          RunOut.ret 2 false Severity.ok)
    ∧ reinitCount [Ev.freshReceiver, Ev.dispatch "describe" [] 0, Ev.wait5,
          Ev.reinit true, Ev.freshReceiver, Ev.dispatch "describe" [] 1,
          Ev.decRetries, Ev.usageIncr, Ev.reinit true] = 2
    ∧ signal (dispFirstDropped 0) = true
    ∧ signal (dispFirstDropped 1) = false := by decide

/-- C7 (amended): if the first dispatch sets the signal, the redispatch
following the first retry clears both signals, the budget permits at least
one retry (`commandRetries ≠ 0`), and the completion does not cross the
usage-refresh threshold, then the engine returns a successful result after
exactly one `Reinitialize` call, regardless of the configured budget. -/
theorem c7_success_on_first_retry_single_reinit (disp : Nat → Outcome)
    (rein : Nat → Bool) (cmd : String) (args : List String) (fuel : Nat)
    (cr gr th u0 : Int) (hs0 : signal (disp 0) = true)
    (hd1 : (disp 1).dropped = false) (hs1 : (disp 1).sev = Severity.ok)
    (hcr : ¬ cr = 0) (hth : u0 + 1 ≤ th) :
    RunExM disp rein cmd args (fuel + 1) cr gr th u0
      = some ([Ev.freshReceiver, Ev.dispatch cmd args 0, Ev.wait5,
          Ev.reinit (rein 0), Ev.freshReceiver, Ev.dispatch cmd args 1,
          Ev.decRetries, Ev.usageIncr], RunOut.ret (u0 + 1) false Severity.ok)
    ∧ reinitCount [Ev.freshReceiver, Ev.dispatch cmd args 0, Ev.wait5,
          Ev.reinit (rein 0), Ev.freshReceiver, Ev.dispatch cmd args 1,
          Ev.decRetries, Ev.usageIncr] = 1 := by
  have hsig1 : signal (disp 1) = false := by simp [signal, hd1, hs1, isError]
  have hrl : retryLoop disp rein cmd args (fuel + 1) cr 0
      = some (iterSeg rein cmd args 0 ++ [], cr - 1, 1) := by
    simp only [retryLoop]
    rw [if_neg (by rw [hs0]; simp), if_neg hcr,
      retryLoop_noSignal disp rein cmd args fuel (cr - 1) 1 hsig1]
  have hnth : ¬ th < u0 + 1 := by omega
  constructor
  · unfold RunExM
    rw [hrl]
    simp [hd1, hs1, isFatal, hnth, iterSeg]
  · simp [reinitCount, isReinitEv, List.filter]

/-- Witness for C7 (amended) at budget `2`, threshold `5`, usage `1`. -/
theorem c7_witness :
    signal (dispFirstDropped 0) = true
    ∧ (dispFirstDropped 1).dropped = false
    ∧ (dispFirstDropped 1).sev = Severity.ok
    ∧ ¬ (2 : Int) = 0
    ∧ (1 : Int) + 1 ≤ 5
    ∧ (RunExM dispFirstDropped reinFail "w7" [] 1 2 0 5 1
        = some ([Ev.freshReceiver, Ev.dispatch "w7" [] 0, Ev.wait5,
            Ev.reinit (reinFail 0), Ev.freshReceiver, Ev.dispatch "w7" [] 1,
            Ev.decRetries, Ev.usageIncr], RunOut.ret (1 + 1) false Severity.ok)
      ∧ reinitCount [Ev.freshReceiver, Ev.dispatch "w7" [] 0, Ev.wait5,
            Ev.reinit (reinFail 0), Ev.freshReceiver, Ev.dispatch "w7" [] 1,
            Ev.decRetries, Ev.usageIncr] = 1) :=
  ⟨by decide, by decide, by decide, by decide, by decide,
    c7_success_on_first_retry_single_reinit dispFirstDropped reinFail "w7" [] 0 2 0 5 1
      (by decide) (by decide) (by decide) (by decide) (by decide)⟩

/-- C5: the usage counter `m_Usage` increases by exactly one on every
command that completes without terminating the process — the returned
usage is the entry usage plus one and the trace contains exactly one
`usageIncr` — and it is never reset: in particular a successful refresh
does not reset it (the first conjunct covers every returning run,
refreshed or not).  It is compared against the refresh threshold only
immediately after a successful command completes: when the incremented
counter stays at or below the threshold the call returns directly after
`usageIncr`, with no refresh events at all. -/
theorem c5_usage_increments_once_and_gates_refresh (disp : Nat → Outcome)
    (rein : Nat → Bool) (cmd : String) (args : List String) (fuel : Nat)
    (cr gr th u0 : Int) :
    (∀ (tr : List Ev) (u : Int) (d : Bool) (s : Severity),
        RunExM disp rein cmd args fuel cr gr th u0 = some (tr, RunOut.ret u d s) →
        u = u0 + 1 ∧ usageCount tr = 1)
    ∧ (∀ (t : List Ev) (rf : Int) (att : Nat),
        retryLoop disp rein cmd args fuel cr 0 = some (t, rf, att) →
        ((disp att).dropped || isFatal (disp att).sev) = false → u0 + 1 ≤ th →
        RunExM disp rein cmd args fuel cr gr th u0
          = some (Ev.freshReceiver :: Ev.dispatch cmd args 0 :: (t ++ [Ev.usageIncr]),
              RunOut.ret (u0 + 1) (disp att).dropped (disp att).sev)) := by
  constructor
  · intro tr u d s hrun
    unfold RunExM at hrun
    cases hret : retryLoop disp rein cmd args fuel cr 0 with
    | none => rw [hret] at hrun; exact absurd hrun (by simp)
    | some x =>
      obtain ⟨t, rf, att⟩ := x
      rw [hret] at hrun
      have hpt := (retryLoop_pure disp rein cmd args fuel cr 0 t rf att hret).1
      have hpr := (refreshLoop_pure (fun i => rein (att + i)) gr.toNat gr 0).1
      by_cases hcond : ((disp att).dropped || isFatal (disp att).sev) = true
      · simp [hcond] at hrun
      · have hcond' : ((disp att).dropped || isFatal (disp att).sev) = false := by
          simpa using hcond
        by_cases hth : th < u0 + 1
        · by_cases hz : (refreshLoop (fun i => rein (att + i)) gr.toNat gr 0).2.1 = 0
          · simp [hcond', hth, hz] at hrun
          · simp only [hcond', Bool.false_eq_true, if_false, if_pos hth, if_neg hz,
              Option.some.injEq, Prod.mk.injEq, RunOut.ret.injEq] at hrun
            obtain ⟨htr, hu, _, _⟩ := hrun
            refine ⟨hu.symm, ?_⟩
            rw [← htr, usageCount_append, usageCount_append, usageCount_cons,
              usageCount_cons, hpt, hpr]
            simp [usageCount, isUsageEv]
        · simp only [hcond', Bool.false_eq_true, if_false, if_neg hth,
            Option.some.injEq, Prod.mk.injEq, RunOut.ret.injEq] at hrun
          obtain ⟨htr, hu, _, _⟩ := hrun
          refine ⟨hu.symm, ?_⟩
          rw [← htr, usageCount_append, usageCount_cons, usageCount_cons, hpt]
          simp [usageCount, isUsageEv]
  · intro t rf att h hcond hth
    have hnth : ¬ th < u0 + 1 := by omega
    unfold RunExM
    rw [h]
    simp [hcond, hnth]

/-- Witness for C5 on a clean command at usage `3`, threshold `9`. -/
theorem c5_witness :
    RunExM dispClean reinOk "w5" [] 1 1 1 9 3
      = some ([Ev.freshReceiver, Ev.dispatch "w5" [] 0, Ev.usageIncr],
          RunOut.ret 4 false Severity.ok)
    ∧ ((4 : Int) = 3 + 1
      ∧ usageCount [Ev.freshReceiver, Ev.dispatch "w5" [] 0, Ev.usageIncr] = 1) :=
  ⟨by decide,
    (c5_usage_increments_once_and_gates_refresh dispClean reinOk "w5" [] 1 1 1 9 3).1
      [Ev.freshReceiver, Ev.dispatch "w5" [] 0, Ev.usageIncr] 4 false Severity.ok
      (by decide)⟩

/-- C8 (modelled from the spec, the matcher body being absent from the
sources): `IsDepotPathUnderClientSpec` evaluates the ordered view-rule
list with last-match-wins semantics — a depot path is under the client
spec iff it matches at least one include rule and the last rule of the
list matching it is not an exclude rule; on the P6 rule list
`[("//depot/main/...", include), ("//depot/main/secret/...", exclude)]` a
path under `//depot/main/secret/` is excluded while another path under
`//depot/main/` is included. -/
theorem c8_last_match_wins :
    (∀ (rules : List ViewRule) (path : String),
        IsDepotPathUnderClientSpec rules path = true ↔
          ((∃ r ∈ rules, r.isInclude = true ∧ ruleMatches r.pattern path = true)
            ∧ ∀ r, lastMatching path rules = some r → r.isInclude = true))
    ∧ IsDepotPathUnderClientSpec p6Rules "//depot/main/secret/plans.txt" = false
    ∧ IsDepotPathUnderClientSpec p6Rules "//depot/main/readme.txt" = true := by
  refine ⟨?_, by decide, by decide⟩
  intro rules path
  constructor
  · intro h
    unfold IsDepotPathUnderClientSpec at h
    cases hl : lastMatching path rules with
    | none => rw [hl] at h; simp at h
    | some r =>
      rw [hl] at h
      obtain ⟨hmem, hmatch⟩ := lastMatching_some_mem path rules r hl
      refine ⟨⟨r, hmem, h, hmatch⟩, ?_⟩
      intro r' hr'
      injection hr' with e
      rw [← e]
      exact h
  · rintro ⟨⟨r, hmem, hinc, hmatch⟩, hlast⟩
    unfold IsDepotPathUnderClientSpec
    cases hl : lastMatching path rules with
    | none =>
      have hf := (lastMatching_none_iff path rules).mp hl r hmem
      rw [hmatch] at hf
      exact absurd hf (by simp)
    | some r' => exact hlast r' hl

/-- Witness for C8: the characterization instantiated at the P6 rule list
and a concrete path. -/
theorem c8_witness :
    IsDepotPathUnderClientSpec p6Rules "//depot/main/readme.txt" = true
      ↔ ((∃ r ∈ p6Rules, r.isInclude = true
            ∧ ruleMatches r.pattern "//depot/main/readme.txt" = true)
        ∧ ∀ r, lastMatching "//depot/main/readme.txt" p6Rules = some r →
            r.isInclude = true) :=
  c8_last_match_wins.1 p6Rules "//depot/main/readme.txt"

/-- Witness for C10 at budget `-1` and fuel `4`. -/
theorem c10_witness :
    (-1 : Int) < 0
    ∧ (retryLoop dispDropped reinFail "w10" [] 4 (-1) 0 = none
      ∧ RunExM dispDropped reinFail "w10" [] 4 (-1) 2 3 0 = none) :=
  ⟨by decide,
    c10_negative_budget_loops_forever dispDropped reinFail "w10" [] (-1) 2 3 0
      (by decide) (fun _ => rfl) 4⟩

end P4Fusion
